import Mathlib

/-!
Verification development for the interactive deployment wizard `deploy.py`
(K3s infrastructure deployment orchestration script).

The script's data is Python dictionaries that hold strings, integers,
booleans and nested dictionaries; they are persisted as YAML (block style,
`sort_keys=False`, two-space indent).  We embed:

* the configuration document type (`YVal` / `Doc`),
* a concrete model of the YAML serialization used by
  `ConfigManager.save_config` (`yaml.dump`) and the parser used by
  `ConfigManager.load_config` (`yaml.safe_load`) on such documents,
* the three prompt primitives of `ConfigManager`,
* the template-parameter catalog and Packer-descriptor generator of
  `PackerManager`,
* the orchestrator flows `_gather_template_parameters`,
  `_handle_parameter_changes`, `_create_new_config` and
  `_proceed_with_packer_build` of `DeploymentOrchestrator`.

Interactive input is modelled as a list of lines; exhausting the list
(EOFError in Python) is modelled as the `none` result.  The filesystem is a
list of `(path, lines)` pairs inside a `World`; an I/O failure of
`save_config` is modelled by a set of paths on which writing fails.
-/

/-- A scalar or nested-mapping value of a configuration document, as
produced by the wizard and by `yaml.safe_load` on the files this program
writes (strings, integers, booleans, nested mappings). -/
inductive YVal where
  | s (v : String)
  | i (v : Int)
  | b (v : Bool)
  | m (fields : List (String × YVal))

/-- A configuration document: an ordered mapping from string keys to
values (a Python `dict`, which preserves insertion order). -/
abbrev Doc := List (String × YVal)

/-- Python `dict` assignment `d[k] = v`: rebinds the key in place when it
is present (keeping its position), appends it otherwise. -/
def pyDictSet {α : Type} : List (String × α) → String → α → List (String × α)
  | [], k, v => [(k, v)]
  | (k', v') :: rest, k, v =>
    if k' = k then (k', v) :: rest else (k', v') :: pyDictSet rest k v

/-- Python `k in d` on a dictionary. -/
def containsKey (d : Doc) (k : String) : Bool :=
  (List.lookup k d).isSome

/-- Decimal digit character for a value below ten. -/
def digitChar : Nat → Char
  | 0 => '0' | 1 => '1' | 2 => '2' | 3 => '3' | 4 => '4'
  | 5 => '5' | 6 => '6' | 7 => '7' | 8 => '8' | 9 => '9'
  | _ => '*'

/-- Decimal digit characters of a natural number (most significant first),
as produced by Python `str` / `yaml.dump` on a non-negative integer. -/
def natChars (n : Nat) : List Char :=
  if _h : n < 10 then [digitChar n]
  else natChars (n / 10) ++ [digitChar (n % 10)]
decreasing_by exact Nat.div_lt_self (by omega) (by omega)

/-- Decimal representation of an integer (with a leading minus sign when
negative), as produced by Python `str` on an `int`. -/
def intChars (n : Int) : List Char :=
  if n < 0 then '-' :: natChars (-n).toNat else natChars n.toNat

/-- `str` of a Python integer. -/
def intRepr (n : Int) : String :=
  String.mk (intChars n)

/-- Numeric value of a decimal digit character. -/
def digitVal (c : Char) : Option Nat :=
  if '0' ≤ c ∧ c ≤ '9' then some (c.toNat - 48) else none

/-- Accumulating decimal parser over a character list; fails on the first
non-digit character. -/
def parseNatChars : List Char → Nat → Option Nat
  | [], acc => some acc
  | c :: rest, acc =>
    match digitVal c with
    | some d => parseNatChars rest (acc * 10 + d)
    | none => none

/-- Integer token as recognized by the YAML loader on the tokens this
serializer emits: an optional minus sign followed by decimal digits. -/
def parseIntTok : List Char → Option Int
  | [] => none
  | c :: rest =>
    if c = '-' then
      match rest with
      | [] => none
      | d :: tl =>
        match parseNatChars (d :: tl) 0 with
        | some m => some (-(m : Int))
        | none => none
    else
      match parseNatChars (c :: rest) 0 with
      | some m => some ((m : Int))
      | none => none

theorem digitVal_digitChar (d : Nat) (h : d < 10) :
    digitVal (digitChar d) = some d := by
  interval_cases d <;> decide

theorem parseNatChars_append (a b : List Char) (acc : Nat) :
    parseNatChars (a ++ b) acc =
      match parseNatChars a acc with
      | some r => parseNatChars b r
      | none => none := by
  induction a generalizing acc with
  | nil => simp [parseNatChars]
  | cons c rest ih =>
    simp only [List.cons_append, parseNatChars]
    cases digitVal c with
    | none => rfl
    | some d => exact ih _

theorem natChars_ne_nil (n : Nat) : natChars n ≠ [] := by
  rw [natChars]
  split
  · simp
  · simp

theorem parseNatChars_natChars (n : Nat) :
    ∀ acc, parseNatChars (natChars n) acc =
      some (acc * 10 ^ (natChars n).length + n) := by
  induction n using Nat.strong_induction_on with
  | _ n ih =>
    intro acc
    rw [natChars]
    split
    · next h =>
      simp [parseNatChars, digitVal_digitChar n h]
    · next h =>
      rw [parseNatChars_append]
      have hlt : n / 10 < n := Nat.div_lt_self (by omega) (by omega)
      rw [ih (n / 10) hlt acc]
      simp only [parseNatChars, digitVal_digitChar (n % 10) (Nat.mod_lt _ (by omega))]
      simp only [List.length_append, List.length_cons, List.length_nil, Nat.zero_add]
      congr 1
      have hpow : 10 ^ ((natChars (n / 10)).length + 1) = 10 ^ (natChars (n / 10)).length * 10 :=
        pow_succ 10 _
      rw [hpow]
      have hdistr : (acc * 10 ^ (natChars (n / 10)).length + n / 10) * 10
          = acc * (10 ^ (natChars (n / 10)).length * 10) + n / 10 * 10 := by ring
      rw [hdistr]
      generalize acc * (10 ^ (natChars (n / 10)).length * 10) = A
      omega

theorem parseNatChars_natChars_zero (n : Nat) :
    parseNatChars (natChars n) 0 = some n := by
  rw [parseNatChars_natChars]
  simp

/-- The head of a decimal numeral is a decimal digit. -/
theorem natChars_head_digit (n : Nat) :
    ∃ c rest, natChars n = c :: rest ∧ ('0' ≤ c ∧ c ≤ '9') := by
  induction n using Nat.strong_induction_on with
  | _ n ih =>
    rw [natChars]
    split
    · next h =>
      refine ⟨digitChar n, [], rfl, ?_⟩
      interval_cases n <;> decide
    · next h =>
      have hlt : n / 10 < n := Nat.div_lt_self (by omega) (by omega)
      obtain ⟨c, rest, heq, hc⟩ := ih (n / 10) hlt
      exact ⟨c, rest ++ [digitChar (n % 10)], by rw [heq]; rfl, hc⟩

theorem parseIntTok_intChars (n : Int) :
    parseIntTok (intChars n) = some n := by
  rw [intChars]
  split
  · next h =>
    obtain ⟨c, rest, heq, hc1, hc2⟩ := natChars_head_digit (-n).toNat
    rw [heq]
    have hstep : parseIntTok ('-' :: c :: rest)
        = match parseNatChars (c :: rest) 0 with
          | some m => some (-(m : Int))
          | none => none := by
      simp [parseIntTok]
    rw [hstep, ← heq, parseNatChars_natChars_zero]
    show some (-(((-n).toNat : Nat) : Int)) = some n
    congr 1
    omega
  · next h =>
    obtain ⟨c, rest, heq, hc1, hc2⟩ := natChars_head_digit n.toNat
    rw [heq]
    have hne : c ≠ '-' := by
      intro hcontra
      subst hcontra
      exact absurd hc1 (by decide)
    have hstep : parseIntTok (c :: rest)
        = match parseNatChars (c :: rest) 0 with
          | some m => some ((m : Int))
          | none => none := by
      simp [parseIntTok, hne]
    rw [hstep, ← heq, parseNatChars_natChars_zero]
    show some ((n.toNat : Nat) : Int) = some n
    congr 1
    omega

/-- Escape of one character inside a double-quoted YAML scalar. -/
def escChar (c : Char) : List Char :=
  if c = '"' then ['\\', '"']
  else if c = '\\' then ['\\', '\\']
  else if c = '\n' then ['\\', 'n']
  else if c = '\t' then ['\\', 't']
  else if c = '\r' then ['\\', 'r']
  else [c]

/-- Escape of a character list inside a double-quoted YAML scalar. -/
def escList : List Char → List Char
  | [] => []
  | c :: rest => escChar c ++ escList rest

/-- Inverse of a single escape code. -/
def unescChar (c : Char) : Char :=
  if c = 'n' then '\n' else if c = 't' then '\t' else if c = 'r' then '\r' else c

/-- Reads the body of a double-quoted token up to (and consuming) the
closing quote, undoing escapes; returns the body and the remaining
characters of the line. -/
def splitQuoted : List Char → Option (List Char × List Char)
  | [] => none
  | c :: rest =>
    if c = '"' then some ([], rest)
    else if c = '\\' then
      match rest with
      | [] => none
      | e :: rest2 =>
        match splitQuoted rest2 with
        | some (k, r) => some (unescChar e :: k, r)
        | none => none
    else
      match splitQuoted rest with
      | some (k, r) => some (c :: k, r)
      | none => none

theorem splitQuoted_quote (r : List Char) : splitQuoted ('"' :: r) = some ([], r) := by
  rw [splitQuoted.eq_def]
  simp

theorem splitQuoted_esc (e : Char) (r : List Char) :
    splitQuoted ('\\' :: e :: r)
      = match splitQuoted r with
        | some (k, rr) => some (unescChar e :: k, rr)
        | none => none := by
  rw [splitQuoted.eq_def]
  simp

theorem splitQuoted_other (c : Char) (r : List Char) (h1 : c ≠ '"') (h2 : c ≠ '\\') :
    splitQuoted (c :: r)
      = match splitQuoted r with
        | some (k, rr) => some (c :: k, rr)
        | none => none := by
  rw [splitQuoted.eq_def]
  simp [h1, h2]

theorem splitQuoted_escList (s : List Char) (r : List Char) :
    splitQuoted (escList s ++ '"' :: r) = some (s, r) := by
  induction s with
  | nil => simp [escList, splitQuoted_quote]
  | cons c rest ih =>
    simp only [escList, List.append_assoc]
    rw [escChar]
    by_cases h1 : c = '"'
    · subst h1
      simp only [if_pos rfl, if_true, List.cons_append, List.nil_append]
      rw [splitQuoted_esc, ih]
      simp [unescChar]
    · rw [if_neg h1]
      by_cases h2 : c = '\\'
      · subst h2
        simp only [if_pos rfl, if_true, List.cons_append, List.nil_append]
        rw [splitQuoted_esc, ih]
        simp [unescChar]
      · rw [if_neg h2]
        by_cases h3 : c = '\n'
        · subst h3
          simp only [if_pos rfl, if_true, List.cons_append, List.nil_append]
          rw [splitQuoted_esc, ih]
          simp [unescChar]
        · rw [if_neg h3]
          by_cases h4 : c = '\t'
          · subst h4
            simp only [if_pos rfl, if_true, List.cons_append, List.nil_append]
            rw [splitQuoted_esc, ih]
            simp [unescChar]
          · rw [if_neg h4]
            by_cases h5 : c = '\r'
            · subst h5
              simp only [if_pos rfl, if_true, List.cons_append, List.nil_append]
              rw [splitQuoted_esc, ih]
              simp [unescChar]
            · rw [if_neg h5]
              simp only [List.cons_append, List.nil_append]
              rw [splitQuoted_other c _ h1 h2, ih]

/-- Lower-casing of one character (ASCII range, the inputs this script
compares). -/
def lowerChar (c : Char) : Char :=
  if 'A' ≤ c ∧ c ≤ 'Z' then Char.ofNat (c.toNat + 32) else c

/-- A whitespace character in the sense of Python `str.strip`. -/
def isSpaceChar (c : Char) : Bool :=
  c = ' ' ∨ c = '\t' ∨ c = '\n' ∨ c = '\x0d' ∨ c = '\x0b' ∨ c = '\x0c'

/-- Python `str.strip()`: removes leading and trailing whitespace. -/
def pyStrip (s : String) : String :=
  String.mk (((s.toList.dropWhile isSpaceChar).reverse.dropWhile isSpaceChar).reverse)

/-- Python `str.lower()` (ASCII range). -/
def pyLower (s : String) : String :=
  String.mk (s.toList.map lowerChar)

/-- Python `str.endswith`. -/
def strEndsWith (s suffix : String) : Bool :=
  suffix.toList.isSuffixOf s.toList

/-- Python `int(str)` on the strings this program can feed it: surrounding
whitespace is ignored, an optional sign is followed by decimal digits with
single underscores allowed between digits. Returns `none` where Python
raises `ValueError`. -/
def pyIntDigits : List Char → Nat → Option Nat
  | [], acc => some acc
  | c :: rest, acc =>
    match digitVal c with
    | some d => pyIntDigits rest (acc * 10 + d)
    | none =>
      if c = '_' then
        match rest with
        | d :: _ =>
          if (digitVal d).isSome then pyIntDigits rest acc else none
        | [] => none
      else none

/-- Python `int(str)`. -/
def pyInt (s : String) : Option Int :=
  let t := (pyStrip s).toList
  match t with
  | [] => none
  | c :: rest =>
    if c = '-' then
      match rest with
      | [] => none
      | d :: tl =>
        if (digitVal d).isSome then
          match pyIntDigits (d :: tl) 0 with
          | some m => some (-(m : Int))
          | none => none
        else none
    else if c = '+' then
      match rest with
      | [] => none
      | d :: tl =>
        if (digitVal d).isSome then
          match pyIntDigits (d :: tl) 0 with
          | some m => some ((m : Int))
          | none => none
        else none
    else
      if (digitVal c).isSome then
        match pyIntDigits (c :: rest) 0 with
        | some m => some ((m : Int))
        | none => none
      else none

/-- The indentation prefix of a dumped line. -/
def spacesChars (n : Nat) : List Char :=
  List.replicate n ' '

/-- A mapping key as serialized by the dumper: always in double-quoted
form (`yaml.dump` leaves unambiguous keys plain, which `yaml.safe_load`
reads back identically, so quoting every key is load-equivalent). -/
def dKeyChars (k : String) : List Char :=
  '"' :: escList k.toList ++ ['"']

/-- The inline token of a scalar value (or of an empty nested mapping,
which `yaml.dump` emits in flow style as a literal pair of braces). -/
def scalarChars : YVal → List Char
  | .s v => '"' :: escList v.toList ++ ['"']
  | .i n => intChars n
  | .b true => ['t', 'r', 'u', 'e']
  | .b false => ['f', 'a', 'l', 's', 'e']
  | .m _ => ['{', '}']

/-- Block-style serialization of a document at a given indentation, one
line per entry, nested mappings indented two further spaces: the shape of
`yaml.dump(config, default_flow_style=False, sort_keys=False)`. -/
def dumpBlock : Nat → Doc → List String
  | _, [] => []
  | n, (k, YVal.m (f :: fs)) :: rest =>
    String.mk (spacesChars n ++ dKeyChars k ++ [':'])
      :: (dumpBlock (n + 2) (f :: fs) ++ dumpBlock n rest)
  | n, (k, v) :: rest =>
    String.mk (spacesChars n ++ dKeyChars k ++ ':' :: ' ' :: scalarChars v)
      :: dumpBlock n rest

/-- The serialized lines of a document; an empty document is emitted in
flow style (a brace pair), as `yaml.dump` does. -/
def dumpYaml (d : Doc) : List String :=
  if d.isEmpty then [String.mk ['{', '}']] else dumpBlock 0 d

/-- Parses one dumped line body (indentation already removed): the key and
either an inline scalar token or nothing (a nested block follows). -/
def parseEntryChars (cs : List Char) : Option (String × Option (List Char)) :=
  match cs with
  | [] => none
  | c :: rest =>
    if c = '"' then
      match splitQuoted rest with
      | some (k, ':' :: []) => some (String.mk k, none)
      | some (k, ':' :: ' ' :: val) => some (String.mk k, some val)
      | _ => none
    else
      let key := cs.takeWhile (fun c2 => c2 ≠ ':')
      if key = [] then none
      else
        match cs.drop key.length with
        | ':' :: [] => some (String.mk key, none)
        | ':' :: ' ' :: val => some (String.mk key, some val)
        | _ => none

/-- Resolves one inline token the way `yaml.safe_load` resolves the tokens
this serializer emits: quoted tokens are strings, a brace pair is the
empty mapping, `true` and `false` are booleans, decimal tokens are
integers, and anything else is a plain string. -/
def parseScalarTok (cs : List Char) : Option YVal :=
  match cs with
  | [] => none
  | c :: rest =>
    if c = '"' then
      match splitQuoted rest with
      | some (s, []) => some (.s (String.mk s))
      | _ => none
    else if c :: rest = ['{', '}'] then some (.m [])
    else if c :: rest = ['t', 'r', 'u', 'e'] then some (.b true)
    else if c :: rest = ['f', 'a', 'l', 's', 'e'] then some (.b false)
    else
      match parseIntTok (c :: rest) with
      | some n => some (.i n)
      | none => some (.s (String.mk (c :: rest)))

/-- Number of leading spaces of a line. -/
def indentLen (l : String) : Nat :=
  (l.toList.takeWhile (fun c => c == ' ')).length

/-- Recursive-descent parser for a block of entries at exactly the given
indentation; stops (without consuming) at the first line of different
indentation.  The fuel argument bounds recursion depth; a fuel larger than
the number of lines is always sufficient. -/
def parseBlock : Nat → Nat → List String → Option (Doc × List String)
  | 0, _, _ => none
  | _ + 1, _, [] => some ([], [])
  | fuel + 1, n, l :: rest =>
    if indentLen l ≠ n then some ([], l :: rest)
    else
      match parseEntryChars (l.toList.drop n) with
      | none => none
      | some (k, some tok) =>
        match parseScalarTok tok with
        | none => none
        | some v => (parseBlock fuel n rest).map (fun p => ((k, v) :: p.1, p.2))
      | some (k, none) =>
        match parseBlock fuel (n + 2) rest with
        | some (f :: sub, rem) =>
          (parseBlock fuel n rem).map (fun p => ((k, YVal.m (f :: sub)) :: p.1, p.2))
        | _ => none

/-- Parses a whole file into a document; the model of `yaml.safe_load` on
the files this program reads and writes.  `none` stands for a parse
failure (`yaml.YAMLError`); an empty file is also rejected here (Python
would yield `None`, which the callers below treat like an empty result). -/
def parseYaml (lines : List String) : Option Doc :=
  if lines = [String.mk ['{', '}']] then some []
  else if lines = [] then none
  else
    match parseBlock (lines.length + 1) 0 lines with
    | some (d, []) => some d
    | _ => none

theorem toList_mk (cs : List Char) : (String.mk cs).toList = cs := rfl

theorem mk_toList (s : String) : String.mk s.toList = s := rfl

theorem takeWhile_spaces (n : Nat) (c : Char) (r : List Char) (h : (c == ' ') = false) :
    (spacesChars n ++ c :: r).takeWhile (fun c2 => c2 == ' ') = spacesChars n := by
  have hne : c ≠ ' ' := by
    intro hc
    subst hc
    simp at h
  induction n with
  | zero => simp [spacesChars, List.takeWhile_cons, h, hne]
  | succ m ih =>
    simp only [spacesChars, List.replicate_succ, List.cons_append, List.takeWhile_cons] at *
    simp [ih]

theorem indentLen_line (n : Nat) (c : Char) (r : List Char) (h : (c == ' ') = false) :
    indentLen (String.mk (spacesChars n ++ c :: r)) = n := by
  unfold indentLen
  rw [toList_mk, takeWhile_spaces n c r h]
  simp [spacesChars]

theorem drop_spaces (n : Nat) (X : List Char) : (spacesChars n ++ X).drop n = X := by
  induction n with
  | zero => simp [spacesChars]
  | succ m ih => simp [spacesChars, List.replicate_succ, ih]

theorem dKey_assoc (k : String) (A : List Char) :
    dKeyChars k ++ A = '"' :: (escList k.toList ++ '"' :: A) := by
  simp [dKeyChars]

theorem indentLen_dump_line (n : Nat) (k : String) (A : List Char) :
    indentLen (String.mk (spacesChars n ++ dKeyChars k ++ A)) = n := by
  rw [List.append_assoc, dKey_assoc]
  exact indentLen_line n '"' _ (by decide)

theorem drop_dump_line (n : Nat) (k : String) (A : List Char) :
    (String.mk (spacesChars n ++ dKeyChars k ++ A)).toList.drop n = dKeyChars k ++ A := by
  rw [toList_mk, List.append_assoc, drop_spaces]

theorem parseEntryChars_key_scalar (k : String) (sc : List Char) :
    parseEntryChars (dKeyChars k ++ ':' :: ' ' :: sc) = some (k, some sc) := by
  rw [dKey_assoc, parseEntryChars]
  rw [if_pos rfl, splitQuoted_escList]
  simp [mk_toList]

theorem parseEntryChars_key_block (k : String) :
    parseEntryChars (dKeyChars k ++ [':']) = some (k, none) := by
  have : dKeyChars k ++ [':'] = '"' :: (escList k.toList ++ '"' :: [':']) := dKey_assoc k [':']
  rw [this, parseEntryChars]
  rw [if_pos rfl, splitQuoted_escList]
  simp [mk_toList]

theorem intChars_head (n : Int) :
    ∃ c rest, intChars n = c :: rest ∧ (c = '-' ∨ ('0' ≤ c ∧ c ≤ '9')) := by
  rw [intChars]
  split
  · exact ⟨'-', natChars (-n).toNat, rfl, Or.inl rfl⟩
  · obtain ⟨c, rest, heq, hc⟩ := natChars_head_digit n.toNat
    exact ⟨c, rest, heq, Or.inr hc⟩

theorem parseScalarTok_scalarChars (v : YVal) (hv : ∀ f fs, v ≠ YVal.m (f :: fs)) :
    parseScalarTok (scalarChars v) = some v := by
  cases v with
  | s str =>
    show parseScalarTok (('"' :: escList str.toList) ++ ['"']) = some (.s str)
    rw [List.cons_append, parseScalarTok]
    rw [if_pos rfl]
    have hsplit : escList str.toList ++ ['"'] = escList str.toList ++ '"' :: [] := rfl
    rw [hsplit, splitQuoted_escList]
    simp [mk_toList]
  | i iv =>
    obtain ⟨c, rest, heq, hc⟩ := intChars_head iv
    show parseScalarTok (intChars iv) = some (.i iv)
    have h1 : c ≠ '"' := by
      rcases hc with h | ⟨ha, hb⟩
      · subst h; decide
      · intro hcon; subst hcon; revert ha; decide
    have h2 : c ≠ '{' := by
      rcases hc with h | ⟨ha, hb⟩
      · subst h; decide
      · intro hcon; subst hcon; revert hb; decide
    have h3 : c ≠ 't' := by
      rcases hc with h | ⟨ha, hb⟩
      · subst h; decide
      · intro hcon; subst hcon; revert hb; decide
    have h4 : c ≠ 'f' := by
      rcases hc with h | ⟨ha, hb⟩
      · subst h; decide
      · intro hcon; subst hcon; revert hb; decide
    rw [heq, parseScalarTok]
    rw [if_neg h1]
    rw [if_neg (by intro hcon; injection hcon with hh _; exact h2 hh)]
    rw [if_neg (by intro hcon; injection hcon with hh _; exact h3 hh)]
    rw [if_neg (by intro hcon; injection hcon with hh _; exact h4 hh)]
    rw [← heq, parseIntTok_intChars]
  | b bv => cases bv <;> rfl
  | m fields =>
    cases fields with
    | nil => rfl
    | cons f fs => exact absurd rfl (hv f fs)

/-- The continuation of a parsed block: `True` when empty, otherwise its
first line is indented strictly less than the block. -/
def restLow (n : Nat) : List String → Prop
  | [] => True
  | l :: _ => indentLen l < n

theorem dumpBlock_nil (n : Nat) : dumpBlock n [] = [] := by
  simp [dumpBlock]

theorem dumpBlock_cons_scalar (n : Nat) (k : String) (v : YVal) (es : Doc)
    (hv : ∀ f fs, v ≠ YVal.m (f :: fs)) :
    dumpBlock n ((k, v) :: es)
      = String.mk (spacesChars n ++ dKeyChars k ++ ':' :: ' ' :: scalarChars v)
          :: dumpBlock n es := by
  cases v with
  | s sv => simp [dumpBlock]
  | i iv => simp [dumpBlock]
  | b bv => simp [dumpBlock]
  | m fields =>
    cases fields with
    | nil => simp [dumpBlock]
    | cons f fs => exact absurd rfl (hv f fs)

theorem dumpBlock_cons_block (n : Nat) (k : String) (f : String × YVal)
    (fs : List (String × YVal)) (es : Doc) :
    dumpBlock n ((k, YVal.m (f :: fs)) :: es)
      = String.mk (spacesChars n ++ dKeyChars k ++ [':'])
          :: (dumpBlock (n + 2) (f :: fs) ++ dumpBlock n es) := by
  simp [dumpBlock]

theorem mk_dump_line_shape (n : Nat) (k : String) (A : List Char) :
    String.mk (spacesChars n ++ dKeyChars k ++ A)
      = String.mk (spacesChars n ++ '"' :: (escList k.toList ++ '"' :: A)) := by
  rw [List.append_assoc, dKey_assoc]

theorem dumpBlock_cons_shape (n : Nat) (k : String) (v : YVal) (es : Doc) :
    ∃ cs t, dumpBlock n ((k, v) :: es) = String.mk (spacesChars n ++ '"' :: cs) :: t := by
  cases v with
  | m fields =>
    cases fields with
    | nil =>
      refine ⟨escList k.toList ++ '"' :: ':' :: ' ' :: scalarChars (YVal.m []),
        dumpBlock n es, ?_⟩
      rw [dumpBlock_cons_scalar n k (YVal.m []) es (by intro f fs h; simp at h),
        mk_dump_line_shape]
    | cons f fs =>
      refine ⟨escList k.toList ++ '"' :: [':'],
        dumpBlock (n + 2) (f :: fs) ++ dumpBlock n es, ?_⟩
      rw [dumpBlock_cons_block, mk_dump_line_shape]
  | s sv =>
    refine ⟨escList k.toList ++ '"' :: ':' :: ' ' :: scalarChars (YVal.s sv),
      dumpBlock n es, ?_⟩
    rw [dumpBlock_cons_scalar n k (YVal.s sv) es (by intro f fs h; simp at h),
      mk_dump_line_shape]
  | i iv =>
    refine ⟨escList k.toList ++ '"' :: ':' :: ' ' :: scalarChars (YVal.i iv),
      dumpBlock n es, ?_⟩
    rw [dumpBlock_cons_scalar n k (YVal.i iv) es (by intro f fs h; simp at h),
      mk_dump_line_shape]
  | b bv =>
    refine ⟨escList k.toList ++ '"' :: ':' :: ' ' :: scalarChars (YVal.b bv),
      dumpBlock n es, ?_⟩
    rw [dumpBlock_cons_scalar n k (YVal.b bv) es (by intro f fs h; simp at h),
      mk_dump_line_shape]

theorem dumpBlock_head_indent (n : Nat) (e : String × YVal) (es : Doc) :
    ∃ l t, dumpBlock n (e :: es) = l :: t ∧ indentLen l = n := by
  obtain ⟨k, v⟩ := e
  obtain ⟨cs, t, heq⟩ := dumpBlock_cons_shape n k v es
  exact ⟨_, t, heq, indentLen_line n '"' cs (by decide)⟩

theorem restLow_dump_append (n m : Nat) (es : Doc) (rest : List String)
    (h : restLow n rest) (hm : n < m) :
    restLow m (dumpBlock n es ++ rest) := by
  cases es with
  | nil =>
    rw [dumpBlock_nil, List.nil_append]
    cases rest with
    | nil => trivial
    | cons l t =>
      have hlt : indentLen l < n := h
      show indentLen l < m
      omega
  | cons e es' =>
    obtain ⟨l, t, heq, hind⟩ := dumpBlock_head_indent n e es'
    rw [heq, List.cons_append]
    show indentLen l < m
    omega

theorem parseBlock_stop (fuel n : Nat) (l : String) (t : List String)
    (h : indentLen l ≠ n) :
    parseBlock (fuel + 1) n (l :: t) = some ([], l :: t) := by
  simp [parseBlock, h]

theorem parseBlock_cons_scalar_step (fuel n : Nat) (k : String) (v : YVal) (R : List String)
    (hv : ∀ f fs, v ≠ YVal.m (f :: fs)) :
    parseBlock (fuel + 1) n
        (String.mk (spacesChars n ++ dKeyChars k ++ ':' :: ' ' :: scalarChars v) :: R)
      = (parseBlock fuel n R).map (fun p => ((k, v) :: p.1, p.2)) := by
  have hind := indentLen_dump_line n k (':' :: ' ' :: scalarChars v)
  have hdrop := drop_dump_line n k (':' :: ' ' :: scalarChars v)
  have hentry := parseEntryChars_key_scalar k (scalarChars v)
  have htok := parseScalarTok_scalarChars v hv
  simp only [parseBlock, hind, hdrop, hentry, htok]
  simp

theorem parseBlock_cons_block_step (fuel n : Nat) (k : String) (R : List String) :
    parseBlock (fuel + 1) n (String.mk (spacesChars n ++ dKeyChars k ++ [':']) :: R)
      = match parseBlock fuel (n + 2) R with
        | some (f :: sub, rem) =>
          (parseBlock fuel n rem).map (fun p => ((k, YVal.m (f :: sub)) :: p.1, p.2))
        | _ => none := by
  have hind := indentLen_dump_line n k [':']
  have hdrop := drop_dump_line n k [':']
  have hentry := parseEntryChars_key_block k
  simp only [parseBlock, hind, hdrop, hentry]
  simp

theorem sizeOf_fields_lt (k : String) (f : String × YVal) (fs : List (String × YVal)) (es : Doc) :
    sizeOf (f :: fs) < sizeOf ((k, YVal.m (f :: fs)) :: es) := by
  simp only [List.cons.sizeOf_spec, Prod.mk.sizeOf_spec, YVal.m.sizeOf_spec]
  omega

theorem sizeOf_tail_lt (k : String) (v : YVal) (es : Doc) :
    sizeOf es < sizeOf ((k, v) :: es) := by
  simp only [List.cons.sizeOf_spec, Prod.mk.sizeOf_spec]
  omega

/-- Parsing a dumped block at its own indentation recovers the document
exactly and stops at the continuation. -/
theorem parseBlock_dumpBlock (fuel n : Nat) (d : Doc) (rest : List String)
    (hfuel : (dumpBlock n d ++ rest).length < fuel)
    (hrest : restLow n rest) :
    parseBlock fuel n (dumpBlock n d ++ rest) = some (d, rest) := by
  cases fuel with
  | zero => exact absurd hfuel (by omega)
  | succ fuel =>
    cases d with
    | nil =>
      rw [dumpBlock_nil, List.nil_append]
      cases rest with
      | nil => rfl
      | cons l t =>
        have hlt : indentLen l < n := hrest
        exact parseBlock_stop fuel n l t (by omega)
    | cons e es =>
      obtain ⟨k, v⟩ := e
      have hsplit : (∃ f fs, v = YVal.m (f :: fs)) ∨ (∀ f fs, v ≠ YVal.m (f :: fs)) := by
        cases v with
        | m fields =>
          cases fields with
          | nil => right; intro f fs hcon; simp at hcon
          | cons f fs => left; exact ⟨f, fs, rfl⟩
        | s sv => right; intro f fs hcon; simp at hcon
        | i iv => right; intro f fs hcon; simp at hcon
        | b bv => right; intro f fs hcon; simp at hcon
      rcases hsplit with ⟨f, fs, rfl⟩ | hv
      · -- nested non-empty mapping entry
        rw [dumpBlock_cons_block] at hfuel ⊢
        rw [List.cons_append] at hfuel ⊢
        rw [List.append_assoc (dumpBlock (n + 2) (f :: fs)) (dumpBlock n es) rest] at hfuel ⊢
        rw [parseBlock_cons_block_step]
        simp only [List.length_cons, List.length_append] at hfuel
        have hfuel1 : (dumpBlock (n + 2) (f :: fs) ++ (dumpBlock n es ++ rest)).length < fuel := by
          simp only [List.length_append]
          omega
        have hrest1 : restLow (n + 2) (dumpBlock n es ++ rest) :=
          restLow_dump_append n (n + 2) es rest hrest (by omega)
        rw [parseBlock_dumpBlock fuel (n + 2) (f :: fs) (dumpBlock n es ++ rest) hfuel1 hrest1]
        show Option.map (fun p => ((k, YVal.m (f :: fs)) :: p.1, p.2))
            (parseBlock fuel n (dumpBlock n es ++ rest))
          = some ((k, YVal.m (f :: fs)) :: es, rest)
        have hfuel2 : (dumpBlock n es ++ rest).length < fuel := by
          simp only [List.length_append]
          omega
        rw [parseBlock_dumpBlock fuel n es rest hfuel2 hrest]
        rfl
      · -- scalar (or empty-mapping) entry
        rw [dumpBlock_cons_scalar n k v es hv] at hfuel ⊢
        rw [List.cons_append] at hfuel ⊢
        rw [parseBlock_cons_scalar_step fuel n k v (dumpBlock n es ++ rest) hv]
        simp only [List.length_cons, List.length_append] at hfuel
        have hfuel2 : (dumpBlock n es ++ rest).length < fuel := by
          simp only [List.length_append]
          omega
        rw [parseBlock_dumpBlock fuel n es rest hfuel2 hrest]
        rfl
termination_by fuel
decreasing_by
  all_goals omega

/-- Parsing a dumped document recovers it exactly. -/
theorem parseYaml_dumpYaml (d : Doc) : parseYaml (dumpYaml d) = some d := by
  cases d with
  | nil => rfl
  | cons e es =>
    obtain ⟨k, v⟩ := e
    obtain ⟨cs, t, heq⟩ := dumpBlock_cons_shape 0 k v es
    have hdump : dumpYaml ((k, v) :: es) = dumpBlock 0 ((k, v) :: es) := by
      simp [dumpYaml]
    rw [hdump, parseYaml]
    have hne1 : dumpBlock 0 ((k, v) :: es) ≠ [String.mk ['{', '}']] := by
      rw [heq]
      intro hcon
      injection hcon with hh _
      have : spacesChars 0 ++ '"' :: cs = ['{', '}'] := congrArg String.toList hh
      simp [spacesChars] at this
    have hne2 : dumpBlock 0 ((k, v) :: es) ≠ [] := by
      rw [heq]
      simp
    rw [if_neg hne1, if_neg hne2]
    have hrt := parseBlock_dumpBlock ((dumpBlock 0 ((k, v) :: es)).length + 1) 0
      ((k, v) :: es) [] (by simp) trivial
    rw [List.append_nil] at hrt
    rw [hrt]

/-- The state outside the program: files on disk (path to lines), the set
of paths on which writing raises an I/O error, and the orchestrator's
`self.current_config`. -/
structure World where
  fs : List (String × List String)
  failPaths : List String
  currentConfig : Doc

/-- `ConfigManager.load_config`: parses a YAML file into a document;
returns an empty document when the file is absent (`FileNotFoundError`) or
its contents do not parse (`yaml.YAMLError`).  Never raises. -/
def loadConfig (fs : List (String × List String)) (path : String) : Doc :=
  match List.lookup path fs with
  | none => []
  | some lines =>
    match parseYaml lines with
    | some d => d
    | none => []

/-- `ConfigManager.save_config`: serializes the document to the path,
returning `true`; on an I/O failure it returns `false` and writes
nothing. -/
def saveConfig (w : World) (config : Doc) (path : String) : Bool × World :=
  if path ∈ w.failPaths then (false, w)
  else (true, { w with fs := pyDictSet w.fs path (dumpYaml config) })

theorem lookup_pyDictSet_self {α : Type} (l : List (String × α)) (k : String) (v : α) :
    List.lookup k (pyDictSet l k v) = some v := by
  induction l with
  | nil => simp [pyDictSet, List.lookup]
  | cons p rest ih =>
    obtain ⟨k', v'⟩ := p
    by_cases h : k' = k
    · subst h
      simp [pyDictSet, List.lookup]
    · rw [pyDictSet]
      rw [if_neg h]
      have hne : (k == k') = false := by
        simp [Ne.symm h]
      simp [List.lookup, hne, ih]

theorem lookup_pyDictSet_ne {α : Type} (l : List (String × α)) (k k2 : String) (v : α)
    (h : k2 ≠ k) :
    List.lookup k2 (pyDictSet l k v) = List.lookup k2 l := by
  have hbeq : (k2 == k) = false := by simp [h]
  induction l with
  | nil => simp [pyDictSet, List.lookup, hbeq]
  | cons p rest ih =>
    obtain ⟨k', v'⟩ := p
    by_cases hk : k' = k
    · subst hk
      have hne : (k2 == k') = false := by simp [h]
      simp [pyDictSet, List.lookup, hne]
    · rw [pyDictSet, if_neg hk]
      by_cases h2 : k2 = k'
      · subst h2
        simp [List.lookup]
      · have hne : (k2 == k') = false := by simp [h2]
        simp [List.lookup, hne, ih]

theorem pyDictSet_keys_of_mem {α : Type} (l : List (String × α)) (k : String) (v : α)
    (h : (List.lookup k l).isSome) :
    (pyDictSet l k v).map Prod.fst = l.map Prod.fst := by
  induction l with
  | nil => simp [List.lookup] at h
  | cons p rest ih =>
    obtain ⟨k', v'⟩ := p
    by_cases hk : k' = k
    · subst hk
      simp [pyDictSet]
    · rw [pyDictSet, if_neg hk]
      have hrest : (List.lookup k rest).isSome := by
        have hne : (k == k') = false := by simp [Ne.symm hk]
        simpa [List.lookup, hne] using h
      simp [ih hrest]

/-- `ConfigManager.prompt_yes_no`: re-prompts until one of the accepted
tokens (case-insensitive, surrounding whitespace ignored) is entered. -/
def promptYesNo : List String → Option Bool × List String
  | [] => (none, [])
  | s :: rest =>
    let r := pyStrip (pyLower s)
    if r = "y" ∨ r = "yes" then (some true, rest)
    else if r = "n" ∨ r = "no" then (some false, rest)
    else promptYesNo rest

/-- `ConfigManager.prompt_choice`: renders a 1-based list and re-prompts
until `int(input(...))` succeeds and falls in range; returns the chosen
element by value. -/
def promptChoice (choices : List String) : List String → Option String × List String
  | [] => (none, [])
  | s :: rest =>
    match pyInt s with
    | some sel =>
      if 1 ≤ sel ∧ sel ≤ (choices.length : Int) then
        ((choices.drop (sel.toNat - 1)).head?, rest)
      else promptChoice choices rest
    | none => promptChoice choices rest

/-- `ConfigManager.prompt_value`: one line of input, trimmed; an empty
entry falls back to the default (`default or ""` in Python). -/
def promptValue (default : Option String) : List String → Option String × List String
  | [] => (none, [])
  | s :: rest =>
    let v := pyStrip s
    (some (if v ≠ "" then v else default.getD ""), rest)

/-- The base parameter catalog of `PackerManager.get_required_parameters`
(ordered mapping from parameter name to prompt description). -/
def basePackerParams : List (String × String) :=
  [("template_name", "Name for the VM template"),
   ("vcenter_host", "vCenter host FQDN"),
   ("vcenter_user", "vCenter username"),
   ("vcenter_password", "vCenter password"),
   ("vcenter_datacenter", "vCenter datacenter name"),
   ("vcenter_cluster", "vCenter cluster name"),
   ("vcenter_datastore", "vCenter datastore for OS disk"),
   ("vcenter_network", "vCenter network name"),
   ("vcenter_folder", "vCenter folder path"),
   ("iso_datastore", "Datastore containing ISO"),
   ("iso_path", "Path to Debian ISO file"),
   ("cpu_cores", "Number of CPU cores (default: 2)"),
   ("memory_mb", "Memory in MB (default: 4096)"),
   ("disk_size_gb", "OS disk size in GB (default: 40)")]

/-- `PackerManager.get_required_parameters`: the base catalog, with one
extra secondary-disk entry appended for the storage-node kind.  Pure. -/
def getRequiredParameters (template_type : String) : List (String × String) :=
  if template_type = "nfs-server" then
    pyDictSet basePackerParams "additional_disk_size_gb"
      "Additional storage disk size in GB (for NFS)"
  else basePackerParams

/-- The numeric-coercion test of `_gather_template_parameters`: the key
ends in a megabyte or gigabyte suffix or is the core-count key. -/
def numericKey (param : String) : Bool :=
  strEndsWith param "_mb" || strEndsWith param "_gb" || param == "cpu_cores"

/-- Conversion applied to an entered value in
`_gather_template_parameters`: numeric keys become integers when
`int(value)` succeeds, anything else keeps the raw text. -/
def coerceValue (param value : String) : YVal :=
  if numericKey param then
    match pyInt value with
    | some n => .i n
    | none => .s value
  else .s value

/-- The per-parameter prompt loop of `_gather_template_parameters`: one
input line per catalog entry; empty (after trimming) entries are skipped
entirely. -/
def gatherLoop : List (String × String) → Doc → List String → Option Doc × List String
  | [], config, inputs => (some config, inputs)
  | _ :: _, _, [] => (none, [])
  | (param, _) :: ps, config, s :: rest =>
    let value := pyStrip s
    gatherLoop ps
      (if value ≠ "" then pyDictSet config param (coerceValue param value) else config) rest

/-- The two template kinds offered by the wizard. -/
def templateTypeChoices : List String := ["k3s-node", "nfs-server"]

/-- `DeploymentOrchestrator._gather_template_parameters`: choose a
template kind, then prompt for every catalog entry. -/
def gatherTemplateParameters (inputs : List String) : Option Doc × List String :=
  match promptChoice templateTypeChoices inputs with
  | (none, r) => (none, r)
  | (some tt, rest) =>
    gatherLoop (getRequiredParameters tt) [("template_type", YVal.s tt)] rest

mutual
/-- Python `repr` of a configuration value (the shape used by `str` on a
dictionary); string escaping inside `repr` is not modelled beyond
quoting. -/
def pyReprV : YVal → String
  | .s sv => "\x27" ++ sv ++ "\x27"
  | .i n => intRepr n
  | .b true => "True"
  | .b false => "False"
  | .m fields => "\x7b" ++ pyReprFields fields ++ "\x7d"

/-- Comma-separated `repr` of the entries of a dictionary. -/
def pyReprFields : List (String × YVal) → String
  | [] => ""
  | [(k, v)] => "\x27" ++ k ++ "\x27: " ++ pyReprV v
  | (k, v) :: f2 :: rest =>
    "\x27" ++ k ++ "\x27: " ++ pyReprV v ++ ", " ++ pyReprFields (f2 :: rest)
end

/-- Python `str` of a configuration value, as used for the inline default
in the editing loop (`str(config[param])`). -/
def pyStr : YVal → String
  | .s sv => sv
  | .i n => intRepr n
  | .b true => "True"
  | .b false => "False"
  | .m fields => "\x7b" ++ pyReprFields fields ++ "\x7d"

/-- The inner while loop of `_handle_parameter_changes`: reads parameter
names until the sentinel; a known name is rebound to the raw string the
value prompt returns, an unknown name is reported and skipped. -/
def editLoop : Doc → List String → Option Doc × List String
  | _, [] => (none, [])
  | config, p :: rest =>
    let pt := pyStrip p
    if pyLower pt = "done" then (some config, rest)
    else if containsKey config pt then
      match rest with
      | [] => (none, [])
      | s :: rest2 =>
        let v := pyStrip s
        let nv := if v ≠ "" then v
          else (some (pyStr ((List.lookup pt config).getD (YVal.s "")))).getD ""
        editLoop (pyDictSet config pt (YVal.s nv)) rest2
    else editLoop config rest

/-- The four dispositions offered after editing. -/
def dispositions : List String :=
  ["Write changes to config permanently",
   "Use changes only for this run",
   "Return to editing",
   "Discard changes"]

/-- `DeploymentOrchestrator._proceed_with_packer_build`: records the
configuration as current, confirms the (simulated) build, then asks about
the next stage.  Touches no files. -/
def proceedWithPackerBuild (config : Doc) (w : World) (inputs : List String) :
    Option Bool × World × List String :=
  let w2 : World := { w with currentConfig := config }
  match promptYesNo inputs with
  | (none, r) => (none, w2, r)
  | (some true, rest) =>
    match promptYesNo rest with
    | (none, r) => (none, w2, r)
    | (some b, rest2) => (some b, w2, rest2)
  | (some false, rest) => (some false, w2, rest)

theorem editLoop_cons (config : Doc) (p : String) (tl : List String) :
    editLoop config (p :: tl)
      = if pyLower (pyStrip p) = "done" then (some config, tl)
        else if containsKey config (pyStrip p) then
          match tl with
          | [] => (none, [])
          | s :: rest2 =>
            editLoop (pyDictSet config (pyStrip p)
              (YVal.s (if pyStrip s ≠ "" then pyStrip s
                else (some (pyStr ((List.lookup (pyStrip p) config).getD (YVal.s "")))).getD "")))
              rest2
        else editLoop config tl := by
  rw [editLoop.eq_def]

theorem editLoop_some_lt_bounded (N : Nat) :
    ∀ (config : Doc) (inputs : List String), inputs.length ≤ N →
      ∀ (c2 : Doc) (rest : List String),
        editLoop config inputs = (some c2, rest) → rest.length < inputs.length := by
  induction N with
  | zero =>
    intro config inputs hlen c2 rest h
    have : inputs = [] := List.eq_nil_of_length_eq_zero (by omega)
    subst this
    simp [editLoop] at h
  | succ N ih =>
    intro config inputs hlen c2 rest h
    cases inputs with
    | nil => simp [editLoop] at h
    | cons p tl =>
      rw [editLoop_cons] at h
      by_cases h1 : pyLower (pyStrip p) = "done"
      · rw [if_pos h1] at h
        injection h with h2 h3
        subst h3
        simp
      · rw [if_neg h1] at h
        by_cases h2 : containsKey config (pyStrip p)
        · rw [if_pos h2] at h
          cases tl with
          | nil => simp at h
          | cons s rest2 =>
            have hlen2 : rest2.length ≤ N := by
              simp only [List.length_cons] at hlen
              omega
            have hrec := ih _ rest2 hlen2 c2 rest h
            simp only [List.length_cons]
            omega
        · rw [if_neg h2] at h
          have hlen2 : tl.length ≤ N := by
            simp only [List.length_cons] at hlen
            omega
          have hrec := ih config tl hlen2 c2 rest h
          simp only [List.length_cons]
          omega

theorem editLoop_some_lt (config : Doc) (inputs : List String) (c2 : Doc) (rest : List String)
    (h : editLoop config inputs = (some c2, rest)) : rest.length < inputs.length :=
  editLoop_some_lt_bounded inputs.length config inputs (Nat.le_refl _) c2 rest h

theorem promptChoice_some_lt (choices : List String) (inputs : List String)
    (sel : String) (rest : List String)
    (h : promptChoice choices inputs = (some sel, rest)) : rest.length < inputs.length := by
  induction inputs with
  | nil => simp [promptChoice] at h
  | cons s tl ih =>
    simp only [promptChoice] at h
    cases hp : pyInt s with
    | none =>
      simp only [hp] at h
      have := ih h
      simp only [List.length_cons]
      omega
    | some k =>
      simp only [hp] at h
      by_cases hr : 1 ≤ k ∧ k ≤ (choices.length : Int)
      · rw [if_pos hr] at h
        injection h with h2 h3
        subst h3
        simp
      · rw [if_neg hr] at h
        have := ih h
        simp only [List.length_cons]
        omega

/-- `DeploymentOrchestrator._handle_parameter_changes`: run the editing
loop, then dispatch on the chosen disposition.  A failed permanent save
falls off the end of the Python function (returning `None`, modelled as
`false`); the discard branch reloads the original file. -/
def handleParameterChanges (config : Doc) (path : String) (w : World) (inputs : List String) :
    Option Bool × World × List String :=
  match h1 : editLoop config inputs with
  | (none, r) => (none, w, r)
  | (some c2, rest) =>
    match h2 : promptChoice dispositions rest with
    | (none, r) => (none, w, r)
    | (some dec, rest2) =>
      if dec = "Write changes to config permanently" then
        match saveConfig w c2 path with
        | (true, w2) => proceedWithPackerBuild c2 w2 rest2
        | (false, w2) => (some false, w2, rest2)
      else if dec = "Use changes only for this run" then
        proceedWithPackerBuild c2 w rest2
      else if dec = "Return to editing" then
        handleParameterChanges c2 path w rest2
      else
        proceedWithPackerBuild (loadConfig w.fs path) w rest2
termination_by inputs.length
decreasing_by
  exact Nat.lt_trans (promptChoice_some_lt dispositions rest dec rest2 h2)
    (editLoop_some_lt config inputs c2 rest h1)

/-- `DeploymentOrchestrator._create_new_config`: prompt for a save path,
run the wizard, display, then persist on confirmation; only a successful
save proceeds to the build step. -/
def createNewConfig (configDir : String) (w : World) (inputs : List String) :
    Option Bool × World × List String :=
  match promptValue (some (configDir ++ "/custom-config.yaml")) inputs with
  | (none, r) => (none, w, r)
  | (some savePath, rest) =>
    match gatherTemplateParameters rest with
    | (none, r) => (none, w, r)
    | (some config, rest2) =>
      if config.isEmpty then (some false, w, rest2)
      else
        match promptYesNo rest2 with
        | (none, r) => (none, w, r)
        | (some true, rest3) =>
          match saveConfig w config savePath with
          | (true, w2) =>
            proceedWithPackerBuild config { w2 with currentConfig := config } rest3
          | (false, w2) => (some false, w2, rest3)
        | (some false, rest3) => (some false, w, rest3)

/-- A value of the generated Packer build descriptor (the nested
dictionary built by `PackerManager.generate_packer_config`, which also
holds lists). -/
inductive PVal where
  | s (v : String)
  | i (v : Int)
  | b (v : Bool)
  | l (items : List PVal)
  | m (fields : List (String × PVal))

/-- `PackerManager`: holds the packer directory; template, script and
http directories hang below it. -/
structure PackerManager where
  packer_dir : String

/-- `pathlib` `/` on the paths this script joins. -/
def pathJoin (a b : String) : String := a ++ "/" ++ b

/-- `self.scripts_dir` of `PackerManager`. -/
def scriptsDir (pm : PackerManager) : String := pathJoin pm.packer_dir "scripts"

/-- `self.http_dir` of `PackerManager`. -/
def httpDir (pm : PackerManager) : String := pathJoin pm.packer_dir "http"

/-- The `PackerConfig` dataclass. -/
structure PackerConfig where
  template_name : String
  template_type : String
  vcenter_host : String
  vcenter_user : String
  vcenter_password : String
  vcenter_datacenter : String
  vcenter_cluster : String
  vcenter_datastore : String
  vcenter_network : String
  vcenter_folder : String
  iso_datastore : String
  iso_path : String
  guest_os_type : String := "debian10_64Guest"
  cpu_cores : Int := 2
  memory_mb : Int := 4096
  disk_size_gb : Int := 40
  additional_disk_size_gb : Option Int := none

/-- The fixed OS boot command sequence of the generated builder stanza. -/
def bootCommand : List PVal :=
  [.s "<esc><esc><esc>",
   .s "<enter><wait>",
   .s "install <wait>",
   .s "preseed/url=http://\x7b\x7b .HTTPIP \x7d\x7d:\x7b\x7b .HTTPPort \x7d\x7d/preseed.cfg <wait>",
   .s "debian-installer=en_US.UTF-8 <wait>",
   .s "auto locale=en_US.UTF-8 <wait>",
   .s "kbd-chooser/method=us <wait>",
   .s "netcfg/get_hostname=\x7b\x7b .Name \x7d\x7d <wait>",
   .s "netcfg/get_domain=local <wait>",
   .s "fb=false debconf/verbose=false <wait>",
   .s "console-setup/ask_detect=false console-keymaps-at/keymap=us <wait>",
   .s "<enter><wait>"]

/-- The three fixed provisioning steps every generated descriptor starts
with (pause, script upload, base setup). -/
def baseProvisioners (pm : PackerManager) : List PVal :=
  [.m [("type", .s "shell"), ("inline", .l [.s "sleep 5"])],
   .m [("type", .s "file"), ("source", .s (scriptsDir pm)), ("destination", .s "/tmp/scripts")],
   .m [("type", .s "shell"), ("script", .s (pathJoin (scriptsDir pm) "base-setup.sh"))]]

/-- `PackerManager.generate_packer_config`: the derived build descriptor
(variables, one builder stanza, provisioners with a kind-specific script
appended for the two known template kinds). -/
def generatePackerConfig (pm : PackerManager) (config : PackerConfig) : List (String × PVal) :=
  [("variables", PVal.m
      [("vcenter_host", .s config.vcenter_host),
       ("vcenter_user", .s config.vcenter_user),
       ("vcenter_password", .s config.vcenter_password),
       ("vcenter_datacenter", .s config.vcenter_datacenter),
       ("vcenter_cluster", .s config.vcenter_cluster),
       ("vcenter_datastore", .s config.vcenter_datastore),
       ("vcenter_network", .s config.vcenter_network),
       ("vcenter_folder", .s config.vcenter_folder),
       ("template_name", .s config.template_name),
       ("iso_datastore", .s config.iso_datastore),
       ("iso_path", .s config.iso_path),
       ("cpu_cores", .s (intRepr config.cpu_cores)),
       ("memory_mb", .s (intRepr config.memory_mb)),
       ("disk_size_gb", .s (intRepr config.disk_size_gb))]),
   ("builders", PVal.l
      [PVal.m
        [("type", .s "vsphere-iso"),
         ("vcenter_server", .s "\x7b\x7b user `vcenter_host` \x7d\x7d"),
         ("username", .s "\x7b\x7b user `vcenter_user` \x7d\x7d"),
         ("password", .s "\x7b\x7b user `vcenter_password` \x7d\x7d"),
         ("datacenter", .s "\x7b\x7b user `vcenter_datacenter` \x7d\x7d"),
         ("cluster", .s "\x7b\x7b user `vcenter_cluster` \x7d\x7d"),
         ("datastore", .s "\x7b\x7b user `vcenter_datastore` \x7d\x7d"),
         ("vm_name", .s "\x7b\x7b user `template_name` \x7d\x7d"),
         ("network", .s "\x7b\x7b user `vcenter_network` \x7d\x7d"),
         ("folder", .s "\x7b\x7b user `vcenter_folder` \x7d\x7d"),
         ("iso_datastore", .s "\x7b\x7b user `iso_datastore` \x7d\x7d"),
         ("iso_path", .s "\x7b\x7b user `iso_path` \x7d\x7d"),
         ("cpus", .s "\x7b\x7b user `cpu_cores` \x7d\x7d"),
         ("memory", .s "\x7b\x7b user `memory_mb` \x7d\x7d"),
         ("disk_size", .s "\x7b\x7b user `disk_size_gb` \x7d\x7d"),
         ("disk_thin_provisioned", .b true),
         ("guest_os_type", .s config.guest_os_type),
         ("notes", .s ("Template created for " ++ config.template_type)),
         ("boot_wait", .s "10s"),
         ("boot_command", PVal.l bootCommand),
         ("http_directory", .s (httpDir pm)),
         ("http_port_min", .i 8000),
         ("http_port_max", .i 9000),
         ("shutdown_command", .s "echo \x27packer\x27 | sudo -S shutdown -P now"),
         ("communicator", .s "ssh"),
         ("ssh_username", .s "root"),
         ("ssh_password", .s "packer"),
         ("ssh_port", .i 22),
         ("ssh_timeout", .s "20m"),
         ("ssh_pty", .b true)]]),
   ("provisioners", PVal.l
      (baseProvisioners pm
        ++ (if config.template_type = "k3s-node" then
              [PVal.m [("type", .s "shell"),
                       ("script", .s (pathJoin (scriptsDir pm) "k3s-prep.sh"))]]
            else if config.template_type = "nfs-server" then
              [PVal.m [("type", .s "shell"),
                       ("script", .s (pathJoin (scriptsDir pm) "nfs-prep.sh"))]]
            else [])))]

/-- C1: for every configuration document (string keys, scalar or
nested-mapping values), saving it with `save_config` to a path the
filesystem accepts and then loading that path with `load_config` yields an
equal document, with key order and nested structure preserved. -/
theorem C1_save_load_roundtrip (w : World) (d : Doc) (path : String)
    (hpath : path ∉ w.failPaths) :
    (saveConfig w d path).1 = true
      ∧ loadConfig (saveConfig w d path).2.fs path = d := by
  rw [saveConfig, if_neg hpath]
  refine ⟨rfl, ?_⟩
  show loadConfig (pyDictSet w.fs path (dumpYaml d)) path = d
  simp only [loadConfig, lookup_pyDictSet_self, parseYaml_dumpYaml]

theorem C1_save_load_roundtrip_witness :
    ("cfg.yaml" ∉ (World.mk [] [] []).failPaths)
      ∧ ((saveConfig (World.mk [] [] [])
            [("a", YVal.i 1), ("b", YVal.m [("c", YVal.s "x")])] "cfg.yaml").1 = true
        ∧ loadConfig (saveConfig (World.mk [] [] [])
            [("a", YVal.i 1), ("b", YVal.m [("c", YVal.s "x")])] "cfg.yaml").2.fs "cfg.yaml"
          = [("a", YVal.i 1), ("b", YVal.m [("c", YVal.s "x")])]) :=
  ⟨by simp, C1_save_load_roundtrip (World.mk [] [] [])
    [("a", YVal.i 1), ("b", YVal.m [("c", YVal.s "x")])] "cfg.yaml" (by simp)⟩

/-- C7: `prompt_value` returns the supplied default exactly when the
input line is empty after stripping, and the stripped literal input
otherwise. -/
theorem C7_prompt_value_default (d s : String) (rest : List String) :
    promptValue (some d) (s :: rest)
      = (some (if pyStrip s = "" then d else pyStrip s), rest) := by
  simp only [promptValue]
  by_cases h : pyStrip s = ""
  · simp [h]
  · simp [h]

/-- C8: `get_required_parameters` returns the base set plus exactly one
secondary-disk entry for `nfs-server`, exactly the base set for
`k3s-node`, and exactly the base set for every other kind; it is a pure
function with no side effects and no error cases. -/
theorem C8_get_required_parameters :
    getRequiredParameters "nfs-server"
        = basePackerParams
          ++ [("additional_disk_size_gb", "Additional storage disk size in GB (for NFS)")]
      ∧ getRequiredParameters "k3s-node" = basePackerParams
      ∧ ∀ t, t ≠ "nfs-server" → getRequiredParameters t = basePackerParams := by
  refine ⟨rfl, rfl, ?_⟩
  intro t ht
  simp [getRequiredParameters, ht]

theorem C8_get_required_parameters_witness :
    ("other" : String) ≠ "nfs-server"
      ∧ getRequiredParameters "other" = basePackerParams :=
  ⟨by decide, C8_get_required_parameters.2.2 "other" (by decide)⟩

/-- C9: `load_config` returns an empty document, without raising, both
when the file is absent and when its contents do not parse as YAML; the
error is recovered locally. -/
theorem C9_load_config_recovers (fs : List (String × List String)) (path : String) :
    (List.lookup path fs = none → loadConfig fs path = [])
      ∧ (∀ lines, List.lookup path fs = some lines → parseYaml lines = none →
          loadConfig fs path = []) := by
  constructor
  · intro h
    simp only [loadConfig, h]
  · intro lines h hp
    simp only [loadConfig, h, hp]

theorem C9_load_config_recovers_witness :
    (List.lookup "absent.yaml" [("a.yaml", ["not yaml ???"])] = none
      ∧ loadConfig [("a.yaml", ["not yaml ???"])] "absent.yaml" = [])
      ∧ (List.lookup "a.yaml" [("a.yaml", ["not yaml ???"])] = some ["not yaml ???"]
        ∧ parseYaml ["not yaml ???"] = none
        ∧ loadConfig [("a.yaml", ["not yaml ???"])] "a.yaml" = []) :=
  ⟨⟨rfl, (C9_load_config_recovers [("a.yaml", ["not yaml ???"])] "absent.yaml").1 rfl⟩,
   ⟨rfl, rfl,
    (C9_load_config_recovers [("a.yaml", ["not yaml ???"])] "a.yaml").2
      ["not yaml ???"] rfl rfl⟩⟩

theorem promptChoice_mem (choices : List String) (inputs : List String)
    (sel : String) (rest : List String)
    (h : promptChoice choices inputs = (some sel, rest)) : sel ∈ choices := by
  induction inputs with
  | nil => simp [promptChoice] at h
  | cons s tl ih =>
    simp only [promptChoice] at h
    cases hp : pyInt s with
    | none =>
      simp only [hp] at h
      exact ih h
    | some k =>
      simp only [hp] at h
      by_cases hr : 1 ≤ k ∧ k ≤ (choices.length : Int)
      · rw [if_pos hr] at h
        injection h with h2 h3
        have hmem : sel ∈ choices.drop (k.toNat - 1) :=
          List.mem_of_mem_head? (by simp [h2])
        exact List.drop_subset _ choices hmem
      · rw [if_neg hr] at h
        exact ih h

theorem promptChoice_invalid_then_valid (choices bad : List String) (good : String)
    (rest : List String) (k : Int)
    (hbad : ∀ b ∈ bad, pyInt b = none
      ∨ ∃ j, pyInt b = some j ∧ ¬(1 ≤ j ∧ j ≤ (choices.length : Int)))
    (hgood : pyInt good = some k) (hk1 : 1 ≤ k) (hk2 : k ≤ (choices.length : Int)) :
    ∃ sel, promptChoice choices (bad ++ good :: rest) = (some sel, rest)
      ∧ choices[k.toNat - 1]? = some sel := by
  induction bad with
  | nil =>
    simp only [List.nil_append, promptChoice, hgood]
    rw [if_pos ⟨hk1, hk2⟩]
    have hlt : k.toNat - 1 < choices.length := by omega
    refine ⟨choices[k.toNat - 1], ?_, ?_⟩
    · rw [List.head?_drop, List.getElem?_eq_getElem hlt]
    · rw [List.getElem?_eq_getElem hlt]
  | cons b bad2 ih =>
    have hb := hbad b (List.mem_cons_self b bad2)
    have hrec := ih (fun b2 hb2 => hbad b2 (List.mem_cons_of_mem b hb2))
    simp only [List.cons_append, promptChoice]
    rcases hb with hb | ⟨j, hbj, hjr⟩
    · simp only [hb]
      exact hrec
    · simp only [hbj]
      rw [if_neg hjr]
      exact hrec

/-- C6: `prompt_choice` never returns a value outside the supplied option
list, and for every non-empty option list and any run of invalid entries
(non-numeric or out of the 1-based range) followed by a valid selection,
it returns exactly the element of the list at that selection. -/
theorem C6_prompt_choice :
    (∀ (choices inputs : List String) (sel : String) (rest : List String),
        promptChoice choices inputs = (some sel, rest) → sel ∈ choices)
      ∧ (∀ (choices bad : List String) (good : String) (rest : List String) (k : Int),
          choices ≠ [] →
          (∀ b ∈ bad, pyInt b = none
            ∨ ∃ j, pyInt b = some j ∧ ¬(1 ≤ j ∧ j ≤ (choices.length : Int))) →
          pyInt good = some k → 1 ≤ k → k ≤ (choices.length : Int) →
          ∃ sel, promptChoice choices (bad ++ good :: rest) = (some sel, rest)
            ∧ choices[k.toNat - 1]? = some sel) :=
  ⟨promptChoice_mem,
   fun choices bad good rest k _ hbad hgood hk1 hk2 =>
    promptChoice_invalid_then_valid choices bad good rest k hbad hgood hk1 hk2⟩

theorem C6_prompt_choice_witness :
    (promptChoice ["alpha", "beta"] ["x", "7", "2"] = (some "beta", []) → "beta" ∈ ["alpha", "beta"])
      ∧ ((["alpha", "beta"] : List String) ≠ []
        ∧ pyInt "2" = some 2
        ∧ ∃ sel, promptChoice ["alpha", "beta"] (["x", "7"] ++ "2" :: []) = (some sel, [])
            ∧ (["alpha", "beta"] : List String)[(2 : Int).toNat - 1]? = some sel) :=
  ⟨C6_prompt_choice.1 ["alpha", "beta"] ["x", "7", "2"] "beta" [],
   by decide,
   rfl,
   C6_prompt_choice.2 ["alpha", "beta"] ["x", "7"] "2" [] 2 (by decide)
     (by
       intro b hb
       simp only [List.mem_cons, List.not_mem_nil, or_false] at hb
       rcases hb with rfl | rfl
       · left; rfl
       · right; exact ⟨7, rfl, by decide⟩)
     rfl (by decide) (by decide)⟩

theorem gatherLoop_preserves (ps : List (String × String)) (config : Doc)
    (inputs : List String) (c2 : Doc) (rest : List String) (key : String)
    (hkey : key ∉ ps.map Prod.fst)
    (hres : gatherLoop ps config inputs = (some c2, rest)) :
    List.lookup key c2 = List.lookup key config := by
  induction ps generalizing config inputs with
  | nil =>
    simp only [gatherLoop, Prod.mk.injEq, Option.some.injEq] at hres
    rw [hres.1]
  | cons q ps2 ih =>
    obtain ⟨param, desc⟩ := q
    cases inputs with
    | nil => simp [gatherLoop] at hres
    | cons s tl =>
      simp only [gatherLoop] at hres
      simp only [List.map_cons, List.mem_cons, not_or] at hkey
      have hres2 := ih _ tl hkey.2 hres
      rw [hres2]
      by_cases hs : pyStrip s ≠ ""
      · rw [if_pos hs, lookup_pyDictSet_ne config param key _ hkey.1]
      · rw [if_neg hs]

theorem gatherLoop_lookup (ps : List (String × String)) (config : Doc)
    (inputs : List String) (c2 : Doc) (rest : List String) (i : Nat) (p v : String)
    (hnd : (ps.map Prod.fst).Nodup)
    (hp : ps[i]?.map Prod.fst = some p)
    (hv : inputs[i]? = some v)
    (hres : gatherLoop ps config inputs = (some c2, rest)) :
    List.lookup p c2
      = if pyStrip v ≠ "" then some (coerceValue p (pyStrip v))
        else List.lookup p config := by
  induction ps generalizing config inputs i with
  | nil => simp at hp
  | cons q ps2 ih =>
    obtain ⟨param, desc⟩ := q
    cases inputs with
    | nil => simp [gatherLoop] at hres
    | cons s tl =>
      simp only [gatherLoop] at hres
      simp only [List.map_cons, List.nodup_cons] at hnd
      cases i with
      | zero =>
        simp only [List.getElem?_cons_zero, Option.map_some'] at hp hv
        injection hp with hp
        injection hv with hv
        subst hp
        subst hv
        have hpres := gatherLoop_preserves ps2 _ tl c2 rest param hnd.1 hres
        rw [hpres]
        by_cases hs : pyStrip s ≠ ""
        · rw [if_pos hs, if_pos hs, lookup_pyDictSet_self]
        · rw [if_neg hs, if_neg hs]
      | succ j =>
        simp only [List.getElem?_cons_succ] at hp hv
        have hmain := ih _ tl j hnd.2 hp hv hres
        rw [hmain]
        have hpmem : p ∈ ps2.map Prod.fst := by
          rcases Option.map_eq_some'.mp hp with ⟨a, ha, ha2⟩
          have := List.getElem?_mem ha
          exact ha2 ▸ List.mem_map_of_mem Prod.fst this
        have hpne : param ≠ p := fun hcon => hnd.1 (hcon ▸ hpmem)
        by_cases hv2 : pyStrip v ≠ ""
        · rw [if_pos hv2, if_pos hv2]
        · rw [if_neg hv2, if_neg hv2]
          by_cases hs : pyStrip s ≠ ""
          · rw [if_pos hs, lookup_pyDictSet_ne config param p _ (Ne.symm hpne)]
          · rw [if_neg hs]

/-- C2: in the parameter-gathering wizard, a non-empty entered value for a
parameter whose name ends in a megabyte/gigabyte suffix or equals the
core-count key is stored as an integer when Python `int` accepts it and as
the entered string otherwise; when no value is supplied the parameter is
left untouched (no coercion is attempted). -/
theorem C2_numeric_coercion (tt : String) (config : Doc) (inputs : List String)
    (c2 : Doc) (rest : List String) (i : Nat) (p v : String)
    (hp : (getRequiredParameters tt)[i]?.map Prod.fst = some p)
    (hv : inputs[i]? = some v)
    (hres : gatherLoop (getRequiredParameters tt) config inputs = (some c2, rest))
    (hnum : numericKey p = true) :
    (pyStrip v ≠ "" →
      List.lookup p c2
        = some (match pyInt (pyStrip v) with
                | some n => YVal.i n
                | none => YVal.s (pyStrip v)))
      ∧ (pyStrip v = "" → List.lookup p c2 = List.lookup p config) := by
  have hnd : ((getRequiredParameters tt).map Prod.fst).Nodup := by
    rw [getRequiredParameters]
    by_cases h : tt = "nfs-server"
    · rw [if_pos h]
      decide
    · rw [if_neg h]
      decide
  have hmain := gatherLoop_lookup _ config inputs c2 rest i p v hnd hp hv hres
  constructor
  · intro hne
    rw [hmain, if_pos hne, coerceValue, if_pos hnum]
  · intro he
    rw [hmain, if_neg (by simp [he])]

theorem C2_numeric_coercion_witness :
    ((getRequiredParameters "k3s-node")[12]?.map Prod.fst = some "memory_mb")
      ∧ numericKey "memory_mb" = true
      ∧ pyStrip "4096" ≠ ""
      ∧ List.lookup "memory_mb"
          [("template_type", YVal.s "k3s-node"), ("template_name", YVal.s "tpl"),
           ("vcenter_host", YVal.s "h"), ("vcenter_user", YVal.s "u"),
           ("vcenter_password", YVal.s "pw"), ("vcenter_datacenter", YVal.s "dc"),
           ("vcenter_cluster", YVal.s "cl"), ("vcenter_datastore", YVal.s "ds"),
           ("vcenter_network", YVal.s "net"), ("vcenter_folder", YVal.s "fold"),
           ("iso_datastore", YVal.s "isods"), ("iso_path", YVal.s "isop"),
           ("cpu_cores", YVal.i 2), ("memory_mb", YVal.i 4096),
           ("disk_size_gb", YVal.s "4GB")]
        = some (YVal.i 4096)
      ∧ numericKey "disk_size_gb" = true
      ∧ List.lookup "disk_size_gb"
          [("template_type", YVal.s "k3s-node"), ("template_name", YVal.s "tpl"),
           ("vcenter_host", YVal.s "h"), ("vcenter_user", YVal.s "u"),
           ("vcenter_password", YVal.s "pw"), ("vcenter_datacenter", YVal.s "dc"),
           ("vcenter_cluster", YVal.s "cl"), ("vcenter_datastore", YVal.s "ds"),
           ("vcenter_network", YVal.s "net"), ("vcenter_folder", YVal.s "fold"),
           ("iso_datastore", YVal.s "isods"), ("iso_path", YVal.s "isop"),
           ("cpu_cores", YVal.i 2), ("memory_mb", YVal.i 4096),
           ("disk_size_gb", YVal.s "4GB")]
        = some (YVal.s "4GB") :=
  ⟨rfl, rfl, by decide,
   (C2_numeric_coercion "k3s-node" [("template_type", YVal.s "k3s-node")]
      ["tpl", "h", "u", "pw", "dc", "cl", "ds", "net", "fold", "isods", "isop",
       "2", "4096", "4GB"]
      [("template_type", YVal.s "k3s-node"), ("template_name", YVal.s "tpl"),
       ("vcenter_host", YVal.s "h"), ("vcenter_user", YVal.s "u"),
       ("vcenter_password", YVal.s "pw"), ("vcenter_datacenter", YVal.s "dc"),
       ("vcenter_cluster", YVal.s "cl"), ("vcenter_datastore", YVal.s "ds"),
       ("vcenter_network", YVal.s "net"), ("vcenter_folder", YVal.s "fold"),
       ("iso_datastore", YVal.s "isods"), ("iso_path", YVal.s "isop"),
       ("cpu_cores", YVal.i 2), ("memory_mb", YVal.i 4096),
       ("disk_size_gb", YVal.s "4GB")]
      [] 12 "memory_mb" "4096" rfl rfl rfl rfl).1 (by decide),
   rfl,
   (C2_numeric_coercion "k3s-node" [("template_type", YVal.s "k3s-node")]
      ["tpl", "h", "u", "pw", "dc", "cl", "ds", "net", "fold", "isods", "isop",
       "2", "4096", "4GB"]
      [("template_type", YVal.s "k3s-node"), ("template_name", YVal.s "tpl"),
       ("vcenter_host", YVal.s "h"), ("vcenter_user", YVal.s "u"),
       ("vcenter_password", YVal.s "pw"), ("vcenter_datacenter", YVal.s "dc"),
       ("vcenter_cluster", YVal.s "cl"), ("vcenter_datastore", YVal.s "ds"),
       ("vcenter_network", YVal.s "net"), ("vcenter_folder", YVal.s "fold"),
       ("iso_datastore", YVal.s "isods"), ("iso_path", YVal.s "isop"),
       ("cpu_cores", YVal.i 2), ("memory_mb", YVal.i 4096),
       ("disk_size_gb", YVal.s "4GB")]
      [] 13 "disk_size_gb" "4GB" rfl rfl rfl rfl).1 (by decide)⟩

theorem editLoop_done (config : Doc) (p : String) (tl : List String)
    (h : pyLower (pyStrip p) = "done") :
    editLoop config (p :: tl) = (some config, tl) := by
  rw [editLoop_cons, if_pos h]

theorem editLoop_skip (config : Doc) (p : String) (tl : List String)
    (h1 : pyLower (pyStrip p) ≠ "done") (h2 : containsKey config (pyStrip p) = false) :
    editLoop config (p :: tl) = editLoop config tl := by
  rw [editLoop_cons, if_neg h1, if_neg (by simp [h2])]

theorem editLoop_update_step (config : Doc) (p s : String) (tl : List String)
    (h1 : pyLower (pyStrip p) ≠ "done")
    (h2 : containsKey config (pyStrip p) = true)
    (h3 : pyStrip s ≠ "") :
    editLoop config (p :: s :: tl)
      = editLoop (pyDictSet config (pyStrip p) (YVal.s (pyStrip s))) tl := by
  rw [editLoop_cons, if_neg h1, if_pos h2]
  show editLoop (pyDictSet config (pyStrip p)
      (YVal.s (if pyStrip s ≠ "" then pyStrip s
        else (some (pyStr ((List.lookup (pyStrip p) config).getD (YVal.s "")))).getD ""))) tl
    = editLoop (pyDictSet config (pyStrip p) (YVal.s (pyStrip s))) tl
  rw [if_pos h3]

theorem editLoop_props_bounded (N : Nat) :
    ∀ (config : Doc) (inputs : List String) (c2 : Doc) (rest : List String),
      inputs.length ≤ N →
      editLoop config inputs = (some c2, rest) →
      c2.map Prod.fst = config.map Prod.fst
        ∧ ∀ k, List.lookup k c2 ≠ List.lookup k config →
            ∃ sv, List.lookup k c2 = some (YVal.s sv) := by
  induction N with
  | zero =>
    intro config inputs c2 rest hlen h
    have : inputs = [] := List.eq_nil_of_length_eq_zero (by omega)
    subst this
    simp [editLoop] at h
  | succ N ih =>
    intro config inputs c2 rest hlen h
    cases inputs with
    | nil => simp [editLoop] at h
    | cons p tl =>
      rw [editLoop_cons] at h
      by_cases h1 : pyLower (pyStrip p) = "done"
      · rw [if_pos h1] at h
        injection h with h2 h3
        injection h2 with h2
        subst h2
        exact ⟨rfl, fun k hk => absurd rfl hk⟩
      · rw [if_neg h1] at h
        by_cases h2 : containsKey config (pyStrip p)
        · rw [if_pos h2] at h
          cases tl with
          | nil => simp at h
          | cons s rest2 =>
            have hlen2 : rest2.length ≤ N := by
              simp only [List.length_cons] at hlen
              omega
            obtain ⟨hkeys, hvals⟩ := ih _ rest2 c2 rest hlen2 h
            have hsome : (List.lookup (pyStrip p) config).isSome := h2
            constructor
            · rw [hkeys, pyDictSet_keys_of_mem _ _ _ hsome]
            · intro k hk
              by_cases hk2 : List.lookup k c2
                  = List.lookup k (pyDictSet config (pyStrip p)
                      (YVal.s (if pyStrip s ≠ "" then pyStrip s
                        else (some (pyStr ((List.lookup (pyStrip p) config).getD
                          (YVal.s "")))).getD "")))
              · by_cases hkp : k = pyStrip p
                · subst hkp
                  rw [hk2, lookup_pyDictSet_self]
                  exact ⟨_, rfl⟩
                · rw [hk2, lookup_pyDictSet_ne config _ k _ hkp] at hk
                  exact absurd rfl hk
              · exact hvals k hk2
        · rw [if_neg (by simp [Bool.not_eq_true] at h2; simp [h2])] at h
          have hlen2 : tl.length ≤ N := by
            simp only [List.length_cons] at hlen
            omega
          exact ih config tl c2 rest hlen2 h

/-- C10: the editing loop preserves the key set of the document (an
unknown parameter name leaves it untouched and updates only rebind
existing keys), and every value it rebinds is stored as the raw string
returned by the prompt, with no numeric coercion. -/
theorem C10_edit_loop_invariants :
    (∀ (config : Doc) (inputs : List String) (c2 : Doc) (rest : List String),
        editLoop config inputs = (some c2, rest) →
        c2.map Prod.fst = config.map Prod.fst
          ∧ ∀ k, List.lookup k c2 ≠ List.lookup k config →
              ∃ sv, List.lookup k c2 = some (YVal.s sv))
      ∧ (∀ (config : Doc) (p : String) (tl : List String),
          pyLower (pyStrip p) ≠ "done" → containsKey config (pyStrip p) = false →
          editLoop config (p :: tl) = editLoop config tl) :=
  ⟨fun config inputs c2 rest h =>
    editLoop_props_bounded inputs.length config inputs c2 rest (Nat.le_refl _) h,
   editLoop_skip⟩

theorem C10_edit_loop_invariants_witness :
    (editLoop [("memory_mb", YVal.i 4096)] ["memory_mb", "8192", "done"]
        = (some [("memory_mb", YVal.s "8192")], [])
      ∧ ([("memory_mb", YVal.s "8192")] : Doc).map Prod.fst
          = ([("memory_mb", YVal.i 4096)] : Doc).map Prod.fst
      ∧ ∀ k, List.lookup k ([("memory_mb", YVal.s "8192")] : Doc)
            ≠ List.lookup k ([("memory_mb", YVal.i 4096)] : Doc) →
          ∃ sv, List.lookup k ([("memory_mb", YVal.s "8192")] : Doc) = some (YVal.s sv))
      ∧ (pyLower (pyStrip "absent_key") ≠ "done"
        ∧ containsKey [("memory_mb", YVal.i 4096)] (pyStrip "absent_key") = false
        ∧ editLoop [("memory_mb", YVal.i 4096)] ("absent_key" :: ["done"])
            = editLoop [("memory_mb", YVal.i 4096)] ["done"]) :=
  ⟨⟨rfl,
    (C10_edit_loop_invariants.1 [("memory_mb", YVal.i 4096)] ["memory_mb", "8192", "done"]
      [("memory_mb", YVal.s "8192")] [] rfl).1,
    (C10_edit_loop_invariants.1 [("memory_mb", YVal.i 4096)] ["memory_mb", "8192", "done"]
      [("memory_mb", YVal.s "8192")] [] rfl).2⟩,
   by decide, rfl,
   C10_edit_loop_invariants.2 [("memory_mb", YVal.i 4096)] "absent_key" ["done"]
     (by decide) rfl⟩

theorem proceedWithPackerBuild_world (config : Doc) (w : World) (inputs : List String) :
    (proceedWithPackerBuild config w inputs).2.1 = { w with currentConfig := config } := by
  rcases h1 : promptYesNo inputs with ⟨ob, r1⟩
  cases ob with
  | none => simp [proceedWithPackerBuild, h1]
  | some b =>
    cases b with
    | false => simp [proceedWithPackerBuild, h1]
    | true =>
      rcases h2 : promptYesNo r1 with ⟨ob2, r2⟩
      cases ob2 <;> simp [proceedWithPackerBuild, h1, h2]

theorem handleParameterChanges_dispatch (config : Doc) (path : String) (w : World)
    (inputs : List String) (c2 : Doc) (rest : List String) (dec : String)
    (rest2 : List String)
    (hedit : editLoop config inputs = (some c2, rest))
    (hchoice : promptChoice dispositions rest = (some dec, rest2)) :
    handleParameterChanges config path w inputs
      = if dec = "Write changes to config permanently" then
          match saveConfig w c2 path with
          | (true, w2) => proceedWithPackerBuild c2 w2 rest2
          | (false, w2) => (some false, w2, rest2)
        else if dec = "Use changes only for this run" then
          proceedWithPackerBuild c2 w rest2
        else if dec = "Return to editing" then
          handleParameterChanges c2 path w rest2
        else
          proceedWithPackerBuild (loadConfig w.fs path) w rest2 := by
  rw [handleParameterChanges.eq_def]
  split
  · next r heq =>
    rw [hedit] at heq
    simp at heq
  · next c2' rest' heq =>
    rw [hedit] at heq
    injection heq with ha hb
    injection ha with ha
    subst ha
    subst hb
    split
    · next r heq2 =>
      rw [hchoice] at heq2
      simp at heq2
    · next dec' rest2' heq2 =>
      rw [hchoice] at heq2
      injection heq2 with ha2 hb2
      injection ha2 with ha2
      subst ha2
      subst hb2
      rfl

/-- C5: starting from a configuration loaded from disk that contains
`memory_mb`, the editing loop on inputs `memory_mb`, `8192`, `done`
followed by the disposition "use only for this run" yields a current
configuration with `memory_mb` bound to the entered `8192`, and the files
on disk are left completely unchanged. -/
theorem C5_use_only_for_this_run (w : World) (path : String) (rest : List String) (v : YVal)
    (hmem : List.lookup "memory_mb" (loadConfig w.fs path) = some v) :
    (handleParameterChanges (loadConfig w.fs path) path w
        ("memory_mb" :: "8192" :: "done" :: "2" :: rest)).2.1.fs = w.fs
      ∧ List.lookup "memory_mb"
          (handleParameterChanges (loadConfig w.fs path) path w
            ("memory_mb" :: "8192" :: "done" :: "2" :: rest)).2.1.currentConfig
        = some (YVal.s "8192") := by
  have hcont : containsKey (loadConfig w.fs path) (pyStrip "memory_mb") = true := by
    show (List.lookup (pyStrip "memory_mb") (loadConfig w.fs path)).isSome = true
    rw [show (pyStrip "memory_mb") = "memory_mb" from rfl, hmem]
    rfl
  have hedit : editLoop (loadConfig w.fs path)
      ("memory_mb" :: "8192" :: "done" :: "2" :: rest)
      = (some (pyDictSet (loadConfig w.fs path) (pyStrip "memory_mb")
          (YVal.s (pyStrip "8192"))), "2" :: rest) := by
    rw [editLoop_update_step _ _ _ _ (by decide) hcont (by decide),
      editLoop_done _ _ _ (by decide)]
  have hchoice : promptChoice dispositions ("2" :: rest)
      = (some "Use changes only for this run", rest) := rfl
  rw [handleParameterChanges_dispatch _ path w _ _ _ _ _ hedit hchoice]
  rw [if_neg (by decide), if_pos rfl]
  constructor
  · rw [proceedWithPackerBuild_world]
  · rw [proceedWithPackerBuild_world]
    show List.lookup "memory_mb" (pyDictSet (loadConfig w.fs path) (pyStrip "memory_mb")
      (YVal.s (pyStrip "8192"))) = some (YVal.s "8192")
    rw [show (pyStrip "memory_mb") = "memory_mb" from rfl,
      show (pyStrip "8192") = "8192" from rfl, lookup_pyDictSet_self]

theorem C5_use_only_for_this_run_witness :
    List.lookup "memory_mb"
        (loadConfig (World.mk [("cfg.yaml", ["\"memory_mb\": 4096"])] [] []).fs "cfg.yaml")
      = some (YVal.i 4096)
      ∧ ((handleParameterChanges
            (loadConfig (World.mk [("cfg.yaml", ["\"memory_mb\": 4096"])] [] []).fs "cfg.yaml")
            "cfg.yaml" (World.mk [("cfg.yaml", ["\"memory_mb\": 4096"])] [] [])
            ("memory_mb" :: "8192" :: "done" :: "2" :: [])).2.1.fs
          = (World.mk [("cfg.yaml", ["\"memory_mb\": 4096"])] [] []).fs
        ∧ List.lookup "memory_mb"
            (handleParameterChanges
              (loadConfig (World.mk [("cfg.yaml", ["\"memory_mb\": 4096"])] [] []).fs "cfg.yaml")
              "cfg.yaml" (World.mk [("cfg.yaml", ["\"memory_mb\": 4096"])] [] [])
              ("memory_mb" :: "8192" :: "done" :: "2" :: [])).2.1.currentConfig
          = some (YVal.s "8192")) :=
  ⟨rfl,
   C5_use_only_for_this_run (World.mk [("cfg.yaml", ["\"memory_mb\": 4096"])] [] [])
     "cfg.yaml" [] (YVal.i 4096) rfl⟩

/-- C4 (amended): a failed `save_config` ends the run instead of
proceeding.  In the create-new-config flow a failed save returns `false`
immediately, and in the editing-loop disposition "Write changes to config
permanently" a failed save falls off the function (a falsy `None`,
modelled `false`); neither reaches the proceed-with-build step, the world
is unchanged, and the remaining input is left unconsumed. -/
theorem C4_failed_save_ends_run :
    (∀ (configDir : String) (w : World) (pin : String) (ins : List String)
        (config : Doc) (rest : List String),
        gatherTemplateParameters ins = (some config, "y" :: rest) →
        config ≠ [] →
        (if pyStrip pin ≠ "" then pyStrip pin else configDir ++ "/custom-config.yaml")
          ∈ w.failPaths →
        createNewConfig configDir w (pin :: ins) = (some false, w, rest))
      ∧ (∀ (config : Doc) (path : String) (w : World) (rest : List String),
          path ∈ w.failPaths →
          handleParameterChanges config path w ("done" :: "1" :: rest)
            = (some false, w, rest)) := by
  constructor
  · intro configDir w pin ins config rest hgather hc hfail
    simp only [createNewConfig, promptValue, Option.getD_some]
    simp only [hgather]
    have hne : config.isEmpty = false := by
      cases config with
      | nil => exact absurd rfl hc
      | cons a b => rfl
    simp only [hne, Bool.false_eq_true, if_false]
    have hy : promptYesNo ("y" :: rest) = (some true, rest) := rfl
    simp only [hy]
    rw [saveConfig, if_pos hfail]
  · intro config path w rest hfail
    rw [handleParameterChanges_dispatch config path w _ config ("1" :: rest)
      "Write changes to config permanently" rest (editLoop_done _ _ _ (by decide)) rfl]
    rw [if_pos rfl, saveConfig, if_pos hfail]

theorem C4_failed_save_ends_run_witness :
    (gatherTemplateParameters
        ["1", "tpl", "h", "u", "pw", "dc", "cl", "ds", "net", "fold", "isods", "isop",
         "2", "4096", "4GB", "y"]
        = (some [("template_type", YVal.s "k3s-node"), ("template_name", YVal.s "tpl"),
            ("vcenter_host", YVal.s "h"), ("vcenter_user", YVal.s "u"),
            ("vcenter_password", YVal.s "pw"), ("vcenter_datacenter", YVal.s "dc"),
            ("vcenter_cluster", YVal.s "cl"), ("vcenter_datastore", YVal.s "ds"),
            ("vcenter_network", YVal.s "net"), ("vcenter_folder", YVal.s "fold"),
            ("iso_datastore", YVal.s "isods"), ("iso_path", YVal.s "isop"),
            ("cpu_cores", YVal.i 2), ("memory_mb", YVal.i 4096),
            ("disk_size_gb", YVal.s "4GB")], ["y"])
      ∧ ([("template_type", YVal.s "k3s-node"), ("template_name", YVal.s "tpl"),
          ("vcenter_host", YVal.s "h"), ("vcenter_user", YVal.s "u"),
          ("vcenter_password", YVal.s "pw"), ("vcenter_datacenter", YVal.s "dc"),
          ("vcenter_cluster", YVal.s "cl"), ("vcenter_datastore", YVal.s "ds"),
          ("vcenter_network", YVal.s "net"), ("vcenter_folder", YVal.s "fold"),
          ("iso_datastore", YVal.s "isods"), ("iso_path", YVal.s "isop"),
          ("cpu_cores", YVal.i 2), ("memory_mb", YVal.i 4096),
          ("disk_size_gb", YVal.s "4GB")] : Doc) ≠ []
      ∧ ((if pyStrip "bad.yaml" ≠ "" then pyStrip "bad.yaml"
          else "config" ++ "/custom-config.yaml") ∈ (World.mk [] ["bad.yaml"] []).failPaths)
      ∧ createNewConfig "config" (World.mk [] ["bad.yaml"] [])
          ("bad.yaml" :: ["1", "tpl", "h", "u", "pw", "dc", "cl", "ds", "net", "fold",
            "isods", "isop", "2", "4096", "4GB", "y"])
          = (some false, World.mk [] ["bad.yaml"] [], []))
      ∧ ("p.yaml" ∈ (World.mk [] ["p.yaml"] []).failPaths
        ∧ handleParameterChanges [("a", YVal.s "b")] "p.yaml" (World.mk [] ["p.yaml"] [])
            ("done" :: "1" :: []) = (some false, World.mk [] ["p.yaml"] [], [])) :=
  ⟨⟨rfl, by simp, by decide,
   C4_failed_save_ends_run.1 "config" (World.mk [] ["bad.yaml"] []) "bad.yaml"
     ["1", "tpl", "h", "u", "pw", "dc", "cl", "ds", "net", "fold", "isods", "isop",
      "2", "4096", "4GB", "y"]
     [("template_type", YVal.s "k3s-node"), ("template_name", YVal.s "tpl"),
      ("vcenter_host", YVal.s "h"), ("vcenter_user", YVal.s "u"),
      ("vcenter_password", YVal.s "pw"), ("vcenter_datacenter", YVal.s "dc"),
      ("vcenter_cluster", YVal.s "cl"), ("vcenter_datastore", YVal.s "ds"),
      ("vcenter_network", YVal.s "net"), ("vcenter_folder", YVal.s "fold"),
      ("iso_datastore", YVal.s "isods"), ("iso_path", YVal.s "isop"),
      ("cpu_cores", YVal.i 2), ("memory_mb", YVal.i 4096),
      ("disk_size_gb", YVal.s "4GB")]
     [] rfl (by simp) (by decide)⟩,
   ⟨by decide,
   C4_failed_save_ends_run.2 [("a", YVal.s "b")] "p.yaml" (World.mk [] ["p.yaml"] [])
     [] (by decide)⟩⟩

theorem C4_failed_save_ends_run_counterexample :
    (createNewConfig "config" (World.mk [] [] [])
        ["bad.yaml", "1", "tpl", "h", "u", "pw", "dc", "cl", "ds", "net", "fold",
         "isods", "isop", "c", "m", "g", "y", "y", "y"]).1 = some true
      ∧ ¬ ((createNewConfig "config" (World.mk [] ["bad.yaml"] [])
          ["bad.yaml", "1", "tpl", "h", "u", "pw", "dc", "cl", "ds", "net", "fold",
           "isods", "isop", "c", "m", "g", "y", "y", "y"]).1 = some true) := by
  constructor
  · rfl
  · intro hcon
    rw [show (createNewConfig "config" (World.mk [] ["bad.yaml"] [])
        ["bad.yaml", "1", "tpl", "h", "u", "pw", "dc", "cl", "ds", "net", "fold",
         "isods", "isop", "c", "m", "g", "y", "y", "y"]).1 = some false from rfl] at hcon
    simp at hcon

/-- The per-configuration content of claim C3: the rendered build
descriptor has exactly the three top-level sections in order, the
variables section is a flat string-to-string mapping with the numeric
fields stringified, the builders section is a single-element list, and the
provisioners section is the fixed base steps with one template-kind
specific shell script appended at the end. -/
def C3DescriptorClaim (pm : PackerManager) (config : PackerConfig) : Prop :=
  (generatePackerConfig pm config).map Prod.fst = ["variables", "builders", "provisioners"]
    ∧ (∃ vars, List.lookup "variables" (generatePackerConfig pm config) = some (PVal.m vars)
        ∧ (∀ kv ∈ vars, ∃ sv, kv.2 = PVal.s sv)
        ∧ List.lookup "cpu_cores" vars = some (PVal.s (intRepr config.cpu_cores))
        ∧ List.lookup "memory_mb" vars = some (PVal.s (intRepr config.memory_mb))
        ∧ List.lookup "disk_size_gb" vars = some (PVal.s (intRepr config.disk_size_gb)))
    ∧ (∃ builder, List.lookup "builders" (generatePackerConfig pm config)
        = some (PVal.l [builder]))
    ∧ (∃ script, List.lookup "provisioners" (generatePackerConfig pm config)
        = some (PVal.l (baseProvisioners pm
            ++ [PVal.m [("type", PVal.s "shell"), ("script", PVal.s script)]])))

/-- C3 (amended): the descriptor shape above holds for every
configuration whose template kind is one of the two known kinds
(`k3s-node`, `nfs-server`); for any other kind no kind-specific script is
appended (see the counterexample), so the original unrestricted claim
fails. -/
theorem C3_descriptor_sections (pm : PackerManager) (config : PackerConfig)
    (ht : config.template_type = "k3s-node" ∨ config.template_type = "nfs-server") :
    C3DescriptorClaim pm config := by
  have hvars : ∀ kv ∈
      [("vcenter_host", PVal.s config.vcenter_host),
       ("vcenter_user", PVal.s config.vcenter_user),
       ("vcenter_password", PVal.s config.vcenter_password),
       ("vcenter_datacenter", PVal.s config.vcenter_datacenter),
       ("vcenter_cluster", PVal.s config.vcenter_cluster),
       ("vcenter_datastore", PVal.s config.vcenter_datastore),
       ("vcenter_network", PVal.s config.vcenter_network),
       ("vcenter_folder", PVal.s config.vcenter_folder),
       ("template_name", PVal.s config.template_name),
       ("iso_datastore", PVal.s config.iso_datastore),
       ("iso_path", PVal.s config.iso_path),
       ("cpu_cores", PVal.s (intRepr config.cpu_cores)),
       ("memory_mb", PVal.s (intRepr config.memory_mb)),
       ("disk_size_gb", PVal.s (intRepr config.disk_size_gb))],
      ∃ sv, kv.2 = PVal.s sv := by
    intro kv hkv
    fin_cases hkv <;> exact ⟨_, rfl⟩
  rcases ht with ht | ht
  · refine ⟨rfl, ⟨_, rfl, hvars, rfl, rfl, rfl⟩, ⟨_, rfl⟩,
      ⟨pathJoin (scriptsDir pm) "k3s-prep.sh", ?_⟩⟩
    simp only [generatePackerConfig, ht]
    rfl
  · refine ⟨rfl, ⟨_, rfl, hvars, rfl, rfl, rfl⟩, ⟨_, rfl⟩,
      ⟨pathJoin (scriptsDir pm) "nfs-prep.sh", ?_⟩⟩
    simp only [generatePackerConfig, ht]
    rfl

theorem C3_descriptor_sections_witness :
    ((PackerConfig.mk "t" "k3s-node" "h" "u" "pw" "dc" "cl" "ds" "net" "f" "isod"
        "isop" "debian10_64Guest" 2 4096 40 none).template_type = "k3s-node"
      ∨ (PackerConfig.mk "t" "k3s-node" "h" "u" "pw" "dc" "cl" "ds" "net" "f" "isod"
        "isop" "debian10_64Guest" 2 4096 40 none).template_type = "nfs-server")
      ∧ C3DescriptorClaim (PackerManager.mk "/p")
          (PackerConfig.mk "t" "k3s-node" "h" "u" "pw" "dc" "cl" "ds" "net" "f" "isod"
            "isop" "debian10_64Guest" 2 4096 40 none) :=
  ⟨Or.inl rfl,
   C3_descriptor_sections (PackerManager.mk "/p")
     (PackerConfig.mk "t" "k3s-node" "h" "u" "pw" "dc" "cl" "ds" "net" "f" "isod"
       "isop" "debian10_64Guest" 2 4096 40 none) (Or.inl rfl)⟩

theorem C3_descriptor_sections_counterexample :
    ¬ C3DescriptorClaim (PackerManager.mk "/p")
        (PackerConfig.mk "t" "other" "h" "u" "pw" "dc" "cl" "ds" "net" "f" "isod"
          "isop" "debian10_64Guest" 2 4096 40 none) := by
  intro hclaim
  obtain ⟨_, _, _, script, hs⟩ := hclaim
  have hact : List.lookup "provisioners"
      (generatePackerConfig (PackerManager.mk "/p")
        (PackerConfig.mk "t" "other" "h" "u" "pw" "dc" "cl" "ds" "net" "f" "isod"
          "isop" "debian10_64Guest" 2 4096 40 none))
      = some (PVal.l (baseProvisioners (PackerManager.mk "/p") ++ [])) := rfl
  rw [hact] at hs
  injection hs with hs
  injection hs with hs
  have hlen := congrArg List.length hs
  simp at hlen
